import Mathlib

/-!
Verification of the nuclide debugger-hhvm-proxy object-reference core
(ObjectId codec, execution-state gate, DataCache orchestration) and of the
linter-adapter invalidation discipline, as exercised by
`pkg/nuclide/debugger-hhvm-proxy/spec/DataCache-spec.js` and the
linter-adapter test material.

The library implementations (`lib/ObjectId.js`, `lib/DataCache.js`,
`lib/DbgpSocket.js`, `LinterAdapter.js`) are not part of the visible tree;
every definition below is modelled from the specification's description of
those modules, pinned to the concrete wire strings and call shapes the test
files assert.
-/

set_option autoImplicit false

namespace Nuclide

/-! Decimal digit printing and parsing (for the JSON wire format) -/

/-- Character for a single decimal digit (argument expected `< 10`). -/
def digitChar : Nat → Char
  | 0 => '0'
  | 1 => '1'
  | 2 => '2'
  | 3 => '3'
  | 4 => '4'
  | 5 => '5'
  | 6 => '6'
  | 7 => '7'
  | 8 => '8'
  | _ => '9'

/-- Numeric value of a decimal digit character. -/
def digitVal (c : Char) : Nat := c.toNat - 48

/-- Fuel-driven decimal printer: digits of `n`, most significant first. -/
def natCharsAux : Nat → Nat → List Char
  | 0, _ => []
  | fuel + 1, n =>
    if n < 10 then [digitChar n]
    else natCharsAux fuel (n / 10) ++ [digitChar (n % 10)]

/-- Decimal representation of a natural number as characters. -/
def natChars (n : Nat) : List Char := natCharsAux (n + 1) n

theorem digitVal_digitChar {m : Nat} (h : m < 10) : digitVal (digitChar m) = m := by
  interval_cases m <;> decide

theorem isDigit_digitChar {m : Nat} (h : m < 10) : (digitChar m).isDigit = true := by
  interval_cases m <;> decide

theorem natCharsAux_ne_nil (fuel n : Nat) (h : n < fuel) : natCharsAux fuel n ≠ [] := by
  cases fuel with
  | zero => omega
  | succ f =>
    simp only [natCharsAux]
    split
    · simp
    · simp

theorem natChars_ne_nil (n : Nat) : natChars n ≠ [] :=
  natCharsAux_ne_nil (n + 1) n (Nat.lt_succ_self n)

theorem mem_natCharsAux_isDigit (fuel : Nat) :
    ∀ n c, c ∈ natCharsAux fuel n → c.isDigit = true := by
  induction fuel with
  | zero => intro n c h; simp [natCharsAux] at h
  | succ f ih =>
    intro n c h
    simp only [natCharsAux] at h
    split at h
    · rcases List.mem_singleton.mp h with rfl
      exact isDigit_digitChar (by omega)
    · rcases List.mem_append.mp h with h1 | h1
      · exact ih _ _ h1
      · rcases List.mem_singleton.mp h1 with rfl
        exact isDigit_digitChar (Nat.mod_lt _ (by omega))

theorem mem_natChars_isDigit (n : Nat) {c : Char} (h : c ∈ natChars n) :
    c.isDigit = true :=
  mem_natCharsAux_isDigit (n + 1) n c h

/-- Accumulating decimal reader over a digit list. -/
def digitsToNatFrom (acc : Nat) : List Char → Nat
  | [] => acc
  | c :: cs => digitsToNatFrom (acc * 10 + digitVal c) cs

/-- Value of a list of decimal digit characters. -/
def digitsToNat (l : List Char) : Nat := digitsToNatFrom 0 l

theorem digitsToNatFrom_append (acc : Nat) (xs ys : List Char) :
    digitsToNatFrom acc (xs ++ ys) = digitsToNatFrom (digitsToNatFrom acc xs) ys := by
  induction xs generalizing acc with
  | nil => rfl
  | cons c cs ih =>
    rw [List.cons_append]
    show digitsToNatFrom (acc * 10 + digitVal c) (cs ++ ys) =
      digitsToNatFrom (digitsToNatFrom (acc * 10 + digitVal c) cs) ys
    exact ih (acc * 10 + digitVal c)

theorem digitsToNatFrom_natCharsAux (fuel : Nat) :
    ∀ n acc, n < fuel → digitsToNatFrom acc (natCharsAux fuel n) = acc * 10 ^ (natCharsAux fuel n).length + n := by
  induction fuel with
  | zero => intro n acc h; omega
  | succ f ih =>
    intro n acc h
    by_cases h10 : n < 10
    · have he : natCharsAux (f + 1) n = [digitChar n] := by
        simp [natCharsAux, h10]
      rw [he]
      have h1 : digitsToNatFrom acc [digitChar n] = acc * 10 + digitVal (digitChar n) := rfl
      rw [h1, digitVal_digitChar h10]
      norm_num
    · have he : natCharsAux (f + 1) n = natCharsAux f (n / 10) ++ [digitChar (n % 10)] := by
        simp [natCharsAux, h10]
      have hdiv : n / 10 < f := by
        have h1 : n / 10 < n := Nat.div_lt_self (by omega) (by omega)
        omega
      rw [he, digitsToNatFrom_append, ih (n / 10) acc hdiv]
      have h1 : ∀ b : Nat, digitsToNatFrom b [digitChar (n % 10)] =
          b * 10 + digitVal (digitChar (n % 10)) := fun b => rfl
      rw [h1, digitVal_digitChar (Nat.mod_lt _ (by omega))]
      rw [List.length_append, List.length_cons, List.length_nil]
      have h2 : acc * 10 ^ ((natCharsAux f (n / 10)).length + (0 + 1)) =
          acc * 10 ^ (natCharsAux f (n / 10)).length * 10 := by ring
      rw [h2]
      omega

theorem digitsToNat_natChars (n : Nat) : digitsToNat (natChars n) = n := by
  have h := digitsToNatFrom_natCharsAux (n + 1) n 0 (Nat.lt_succ_self n)
  simpa [digitsToNat, natChars] using h

/-- Decimal string of a natural number, as produced by the JSON serializer. -/
def natToString (n : Nat) : String := String.mk (natChars n)

/-- Longest digit run at the front of the input, with the remainder. -/
def takeDigits : List Char → List Char × List Char
  | [] => ([], [])
  | c :: cs =>
    if c.isDigit then
      let p := takeDigits cs
      (c :: p.1, p.2)
    else ([], c :: cs)

theorem takeDigits_append (ds : List Char) (hds : ∀ c ∈ ds, c.isDigit = true) :
    ∀ (rest : List Char), (∀ c ∈ rest.head?, c.isDigit = false) →
      takeDigits (ds ++ rest) = (ds, rest) := by
  induction ds with
  | nil =>
    intro rest hrest
    cases rest with
    | nil => rfl
    | cons c cs =>
      have hc : c.isDigit = false := hrest c rfl
      simp [takeDigits, hc]
  | cons d ds ih =>
    intro rest hrest
    have hd : d.isDigit = true := hds d (List.mem_cons_self d ds)
    have ih' := ih (fun c hc => hds c (List.mem_cons_of_mem d hc)) rest hrest
    simp [takeDigits, hd, ih']

/-- Parse a non-empty digit run into a number (fails on no digits). -/
def parseNumber (l : List Char) : Option (Nat × List Char) :=
  let p := takeDigits l
  if p.1.isEmpty then none else some (digitsToNat p.1, p.2)

theorem parseNumber_natChars_cons (n : Nat) (c : Char) (rest : List Char)
    (hc : c.isDigit = false) :
    parseNumber (natChars n ++ c :: rest) = some (n, c :: rest) := by
  have h1 : takeDigits (natChars n ++ c :: rest) = (natChars n, c :: rest) := by
    refine takeDigits_append _ (fun d hd => mem_natChars_isDigit n hd) _ ?_
    intro x hx
    have hxc : c = x := by simpa using hx
    rw [← hxc]; exact hc
  have h2 : (natChars n).isEmpty = false := by
    cases hn : natChars n with
    | nil => exact absurd hn (natChars_ne_nil n)
    | cons a as => rfl
  unfold parseNumber
  rw [h1]
  simp only [h2, Bool.false_eq_true, if_false, digitsToNat_natChars]

/-- Consume an expected literal run of characters. -/
def expectChars : List Char → List Char → Option (List Char)
  | [], l => some l
  | _ :: _, [] => none
  | c :: cs, x :: xs => if x = c then expectChars cs xs else none

theorem expectChars_append (pat rest : List Char) :
    expectChars pat (pat ++ rest) = some rest := by
  induction pat with
  | nil => rfl
  | cons c cs ih => simp [expectChars, ih]

/-- Consume characters up to and including the next double quote. -/
def takeUntilQuote : List Char → Option (List Char × List Char)
  | [] => none
  | c :: cs =>
    if c = '"' then some ([], cs)
    else
      match takeUntilQuote cs with
      | some (s, rest) => some (c :: s, rest)
      | none => none

theorem takeUntilQuote_append (s : List Char) (hs : s.all (fun c => c != '"') = true)
    (rest : List Char) : takeUntilQuote (s ++ '"' :: rest) = some (s, rest) := by
  induction s with
  | nil => simp [takeUntilQuote]
  | cons c cs ih =>
    rw [List.all_cons, Bool.and_eq_true] at hs
    have hc : c ≠ '"' := by simpa using hs.1
    have ih' := ih hs.2
    simp [takeUntilQuote, hc, ih']

/-! ObjectId data model and codec

Modelled from the spec: `lib/ObjectId.js` is not in the visible tree; the
three identifier variants, their common `{enableCount, frameIndex, contextId}`
payload and the JSON-object wire format are taken from the specification's
codec contract and from the exact wire strings asserted by
`DataCache-spec.js` (key `enableCount`, then `frameIndex`, then `contextId`). -/

/-- Common payload of every identifier variant. The spec's "generation" is
serialized under the key `enableCount`. -/
structure ObjectIdBase where
  enableCount : Nat
  frameIndex : Nat
  contextId : String
deriving DecidableEq, Repr

/-- Paging window carried by a `Paged` identifier. -/
structure PagedWindow where
  pagesize : Nat
  startIndex : Nat
  count : Nat
deriving DecidableEq, Repr

/-- Tagged identifier variants: whole scope, paged collection window, and a
single page of a collection. -/
inductive ObjectId where
  | context (base : ObjectIdBase)
  | paged (base : ObjectIdBase) (fullname : String) (page : PagedWindow)
  | singlePage (base : ObjectIdBase) (fullname : String) (index : Nat)
deriving DecidableEq, Repr

/-- Common payload of an identifier, whichever the variant. -/
def baseOf : ObjectId → ObjectIdBase
  | .context b => b
  | .paged b _ _ => b
  | .singlePage b _ _ => b

/-- Modelled from the spec: `createContextObjectId` of `lib/ObjectId.js`. -/
def createContextObjectId (enableCount frameIndex : Nat) (contextId : String) : ObjectId :=
  .context ⟨enableCount, frameIndex, contextId⟩

/-- Modelled from the spec: `pagedObjectId` of `lib/ObjectId.js`. -/
def pagedObjectId (parent : ObjectId) (fullname : String) (page : PagedWindow) : ObjectId :=
  .paged (baseOf parent) fullname page

/-- Modelled from the spec: `singlePageObjectId` of `lib/ObjectId.js`. -/
def singlePageObjectId (parent : ObjectId) (fullname : String) (index : Nat) : ObjectId :=
  .singlePage (baseOf parent) fullname index

def keyEnable : List Char :=
  ['\x7b', '"', 'e', 'n', 'a', 'b', 'l', 'e', 'C', 'o', 'u', 'n', 't', '"', ':']

def keyFrame : List Char :=
  [',', '"', 'f', 'r', 'a', 'm', 'e', 'I', 'n', 'd', 'e', 'x', '"', ':']

def keyContext : List Char :=
  [',', '"', 'c', 'o', 'n', 't', 'e', 'x', 't', 'I', 'd', '"', ':', '"']

def keyFullname : List Char :=
  [',', '"', 'f', 'u', 'l', 'l', 'n', 'a', 'm', 'e', '"', ':', '"']

def keyPagesize : List Char :=
  [',', '"', 'p', 'a', 'g', 'e', 's', 'i', 'z', 'e', '"', ':']

def keyStartIndex : List Char :=
  [',', '"', 's', 't', 'a', 'r', 't', 'I', 'n', 'd', 'e', 'x', '"', ':']

def keyCount : List Char := [',', '"', 'c', 'o', 'u', 'n', 't', '"', ':']

def keyIndex : List Char := [',', '"', 'i', 'n', 'd', 'e', 'x', '"', ':']

def endBrace : List Char := ['\x7d']

/-- Serialized form of the common payload, continued by `rest`. -/
def encodeBaseChars (b : ObjectIdBase) (rest : List Char) : List Char :=
  keyEnable ++ (natChars b.enableCount ++ (keyFrame ++ (natChars b.frameIndex ++
    (keyContext ++ (b.contextId.data ++ ('"' :: rest))))))

/-- Serialized form of an identifier (character list of the JSON object). -/
def encodeChars : ObjectId → List Char
  | .context b => encodeBaseChars b endBrace
  | .paged b fn pg => encodeBaseChars b
      (keyFullname ++ (fn.data ++ ('"' :: (keyPagesize ++ (natChars pg.pagesize ++
        (keyStartIndex ++ (natChars pg.startIndex ++
          (keyCount ++ (natChars pg.count ++ endBrace)))))))))
  | .singlePage b fn i => encodeBaseChars b
      (keyFullname ++ (fn.data ++ ('"' :: (keyIndex ++ (natChars i ++ endBrace)))))

/-- Modelled from the spec: `remoteObjectIdOfObjectId` of `lib/ObjectId.js` —
the opaque string handle handed to the front-end. -/
def remoteObjectIdOfObjectId (oid : ObjectId) : String := String.mk (encodeChars oid)

/-- Decoder over the character list; disambiguates the variant purely from
which optional fields are present, rejecting mixed field sets. -/
def decodeChars (l : List Char) : Option ObjectId :=
  match expectChars keyEnable l with
  | none => none
  | some l1 =>
  match parseNumber l1 with
  | none => none
  | some (en, l2) =>
  match expectChars keyFrame l2 with
  | none => none
  | some l3 =>
  match parseNumber l3 with
  | none => none
  | some (fi, l4) =>
  match expectChars keyContext l4 with
  | none => none
  | some l5 =>
  match takeUntilQuote l5 with
  | none => none
  | some (cid, l6) =>
  let b : ObjectIdBase := ⟨en, fi, String.mk cid⟩
  match expectChars endBrace l6 with
  | some l7 => if l7.isEmpty then some (.context b) else none
  | none =>
  match expectChars keyFullname l6 with
  | none => none
  | some l7 =>
  match takeUntilQuote l7 with
  | none => none
  | some (fn, l8) =>
  match expectChars keyPagesize l8 with
  | some l9 =>
    (match parseNumber l9 with
    | none => none
    | some (ps, l10) =>
    match expectChars keyStartIndex l10 with
    | none => none
    | some l11 =>
    match parseNumber l11 with
    | none => none
    | some (si, l12) =>
    match expectChars keyCount l12 with
    | none => none
    | some l13 =>
    match parseNumber l13 with
    | none => none
    | some (ct, l14) =>
    match expectChars endBrace l14 with
    | some l15 => if l15.isEmpty then some (.paged b (String.mk fn) ⟨ps, si, ct⟩) else none
    | none => none)
  | none =>
  match expectChars keyIndex l8 with
  | none => none
  | some l9 =>
  match parseNumber l9 with
  | none => none
  | some (i, l10) =>
  match expectChars endBrace l10 with
  | some l11 => if l11.isEmpty then some (.singlePage b (String.mk fn) i) else none
  | none => none

/-- Modelled from the spec: the decoding direction of the ObjectId codec
(`decode(RemoteObjectId) -> ObjectId`, failing on malformed strings). -/
def objectIdOfRemoteObjectId (s : String) : Option ObjectId := decodeChars s.data

/-- A string is serializable without escaping when it has no double quote. -/
def strOk (s : String) : Bool := s.data.all fun c => c != '"'

/-- Well-formed identifiers: the embedded strings need no JSON escaping. -/
def wellFormedObjectId : ObjectId → Bool
  | .context b => strOk b.contextId
  | .paged b fn _ => strOk b.contextId && strOk fn
  | .singlePage b fn _ => strOk b.contextId && strOk fn

theorem parseNumber_keyFrame (n : Nat) (r : List Char) :
    parseNumber (natChars n ++ (keyFrame ++ r)) = some (n, keyFrame ++ r) :=
  parseNumber_natChars_cons n ',' (List.drop 1 keyFrame ++ r) (by decide)

theorem parseNumber_keyContext (n : Nat) (r : List Char) :
    parseNumber (natChars n ++ (keyContext ++ r)) = some (n, keyContext ++ r) :=
  parseNumber_natChars_cons n ',' (List.drop 1 keyContext ++ r) (by decide)

theorem parseNumber_keyStartIndex (n : Nat) (r : List Char) :
    parseNumber (natChars n ++ (keyStartIndex ++ r)) = some (n, keyStartIndex ++ r) :=
  parseNumber_natChars_cons n ',' (List.drop 1 keyStartIndex ++ r) (by decide)

theorem parseNumber_keyCount (n : Nat) (r : List Char) :
    parseNumber (natChars n ++ (keyCount ++ r)) = some (n, keyCount ++ r) :=
  parseNumber_natChars_cons n ',' (List.drop 1 keyCount ++ r) (by decide)

theorem parseNumber_endBrace (n : Nat) :
    parseNumber (natChars n ++ endBrace) = some (n, endBrace) :=
  parseNumber_natChars_cons n '\x7d' [] (by decide)

theorem expectChars_endBrace_self : expectChars endBrace endBrace = some [] := rfl

theorem expectChars_endBrace_keyFullname (x : List Char) :
    expectChars endBrace (keyFullname ++ x) = none := rfl

theorem expectChars_keyPagesize_keyIndex (x : List Char) :
    expectChars keyPagesize (keyIndex ++ x) = none := rfl

theorem string_mk_data (s : String) : String.mk s.data = s := rfl

theorem string_append_mk (a b : List Char) : String.mk a ++ String.mk b = String.mk (a ++ b) :=
  rfl

/-- Decoding inverts encoding on every well-formed identifier. -/
theorem decode_encode (v : ObjectId) (h : wellFormedObjectId v = true) :
    objectIdOfRemoteObjectId (remoteObjectIdOfObjectId v) = some v := by
  cases v with
  | context b =>
    have hcid : b.contextId.data.all (fun c => c != '"') = true := h
    show decodeChars (encodeChars (.context b)) = some (.context b)
    simp only [encodeChars, encodeBaseChars, decodeChars, expectChars_append,
      parseNumber_keyFrame, parseNumber_keyContext,
      takeUntilQuote_append _ hcid, expectChars_endBrace_self, List.isEmpty_nil,
      if_true, string_mk_data]
  | paged b fn pg =>
    rw [wellFormedObjectId, Bool.and_eq_true] at h
    have hcid : b.contextId.data.all (fun c => c != '"') = true := h.1
    have hfn : fn.data.all (fun c => c != '"') = true := h.2
    show decodeChars (encodeChars (.paged b fn pg)) = some (.paged b fn pg)
    simp only [encodeChars, encodeBaseChars, decodeChars, expectChars_append,
      parseNumber_keyFrame, parseNumber_keyContext, parseNumber_keyStartIndex,
      parseNumber_keyCount, parseNumber_endBrace,
      takeUntilQuote_append _ hcid, takeUntilQuote_append _ hfn,
      expectChars_endBrace_keyFullname, expectChars_endBrace_self, List.isEmpty_nil,
      if_true, string_mk_data]
  | singlePage b fn i =>
    rw [wellFormedObjectId, Bool.and_eq_true] at h
    have hcid : b.contextId.data.all (fun c => c != '"') = true := h.1
    have hfn : fn.data.all (fun c => c != '"') = true := h.2
    show decodeChars (encodeChars (.singlePage b fn i)) = some (.singlePage b fn i)
    simp only [encodeChars, encodeBaseChars, decodeChars, expectChars_append,
      parseNumber_keyContext, parseNumber_keyFrame, parseNumber_endBrace,
      takeUntilQuote_append _ hcid, takeUntilQuote_append _ hfn,
      expectChars_endBrace_keyFullname, expectChars_endBrace_self,
      expectChars_keyPagesize_keyIndex, List.isEmpty_nil,
      if_true, string_mk_data]

/-! Execution-state gate

Modelled from the spec: the gate inside `lib/DataCache.js`, driven by the
`STATUS_BREAK` / `STATUS_RUNNING` notifications of `lib/DbgpSocket.js`
(neither file is in the visible tree). Initial state `Running` with
generation 0; a Break moves to `Inspectable` and always increments the
generation, a Resume moves back to `Running` leaving the generation alone. -/

/-- Execution-status events delivered by the socket's status stream. -/
inductive DbgpStatus where
  | statusBreak
  | statusRunning
deriving DecidableEq, Repr

/-- Gate state: the generation counter (wire name `enableCount`) and whether
the engine is currently inspectable. -/
structure GateState where
  enableCount : Nat
  enabled : Bool
deriving DecidableEq, Repr

/-- State of the gate at DataCache construction. -/
def initialGate : GateState := { enableCount := 0, enabled := false }

/-- Status-event handler: the only mutator of gate state. -/
def onStatus (g : GateState) (s : DbgpStatus) : GateState :=
  match s with
  | .statusBreak => { enableCount := g.enableCount + 1, enabled := true }
  | .statusRunning => { g with enabled := false }

/-- Gate state after a whole history of status events. -/
def gateAfter (events : List DbgpStatus) : GateState :=
  events.foldl onStatus initialGate

/-! DataCache request orchestration

Modelled from the spec: `lib/DataCache.js` is not in the visible tree. The
protocol client and the property/value conversion routines are external
collaborators, so they enter as parameters; each operation returns the
(unchanged) gate, an `Except` outcome, and the exact list of protocol-client
calls it made, which is how "fails fast without invoking the protocol
client" is expressed. -/

/-- Error taxonomy of the reference-resolution core. -/
inductive DataCacheError where
  | notPaused
  | staleReference
  | malformedReference
deriving DecidableEq, Repr

/-- One engine-reported context: display name and engine context id. -/
structure EngineContext where
  name : String
  id : String
deriving DecidableEq, Repr

/-- Front-end-facing remote object handle inside a scope descriptor. -/
structure RemoteObject where
  description : String
  type : String
  objectId : String
deriving DecidableEq, Repr

/-- One entry of the `getScopesForFrame` result. -/
structure ScopeDescriptor where
  object : RemoteObject
  type : String
deriving DecidableEq, Repr

/-- Protocol-client invocations, recorded for the fail-fast contracts. -/
inductive ClientCall where
  | getContextsForFrame (frameIndex : Nat)
  | getContextProperties (frameIndex : Nat) (contextId : String)
  | getPropertiesByFullname (frameIndex : Nat) (contextId : String)
      (fullname : String) (index : Nat)
  | evaluateOnCallFrame (frameIndex : Nat) (expression : String)
deriving DecidableEq, Repr

/-- Raw evaluate answer from the protocol client. -/
structure EvalResponse (Raw : Type) where
  result : Raw
  wasThrown : Bool
deriving DecidableEq, Repr

/-- External protocol client (DbgpSocket interface), as response functions. -/
structure DbgpClient (Raw : Type) where
  getContextsForFrame : Nat → List EngineContext
  getContextProperties : Nat → String → Raw
  getPropertiesByFullname : Nat → String → String → Nat → Raw
  evaluateOnCallFrame : Nat → String → EvalResponse Raw

/-- External property/value conversion routines. -/
structure Converters (Raw Conv Val : Type) where
  convertProperties : ObjectId → Raw → Conv
  getPagedProperties : ObjectId → Conv
  convertValue : ObjectId → Raw → Val

/-- Outcome of one DataCache operation: resulting gate state, result or
error, and the protocol-client calls performed. -/
structure OpResult (R : Type) where
  gate : GateState
  out : Except DataCacheError R
  calls : List ClientCall
deriving Repr

/-- Converted value paired with the client's `wasThrown` flag. -/
structure EvalResult (Val : Type) where
  result : Val
  wasThrown : Bool
deriving DecidableEq, Repr

/-- Reserved sentinel context id used for evaluate-on-frame results. -/
def watchContextId : String := "Watch Context Id"

/-- Scope descriptor minted for one engine context. -/
def scopeDescriptorOfContext (enableCount frameIndex : Nat) (c : EngineContext) :
    ScopeDescriptor :=
  { object :=
      { description := c.name
        type := "object"
        objectId := remoteObjectIdOfObjectId (.context ⟨enableCount, frameIndex, c.id⟩) }
    type := if c.name = "Locals" then "local" else "global" }

/-- Modelled from the spec: `DataCache.getScopesForFrame`. -/
def getScopesForFrame {Raw : Type} (client : DbgpClient Raw) (gate : GateState)
    (frameIndex : Nat) : OpResult (List ScopeDescriptor) :=
  if gate.enabled then
    { gate := gate
      out := .ok ((client.getContextsForFrame frameIndex).map
        (scopeDescriptorOfContext gate.enableCount frameIndex))
      calls := [.getContextsForFrame frameIndex] }
  else { gate := gate, out := .error .notPaused, calls := [] }

/-- Modelled from the spec: `DataCache.getProperties`, dispatching on the
decoded identifier variant after the gate and generation checks. -/
def getProperties {Raw Conv Val : Type} (client : DbgpClient Raw)
    (conv : Converters Raw Conv Val) (gate : GateState) (remoteId : String) :
    OpResult Conv :=
  if gate.enabled then
    match objectIdOfRemoteObjectId remoteId with
    | none => { gate := gate, out := .error .malformedReference, calls := [] }
    | some oid =>
      if (baseOf oid).enableCount = gate.enableCount then
        match oid with
        | .context b =>
          { gate := gate
            out := .ok (conv.convertProperties (.context b)
              (client.getContextProperties b.frameIndex b.contextId))
            calls := [.getContextProperties b.frameIndex b.contextId] }
        | .paged b fn pg =>
          { gate := gate
            out := .ok (conv.getPagedProperties (.paged b fn pg))
            calls := [] }
        | .singlePage b fn i =>
          { gate := gate
            out := .ok (conv.convertProperties (.singlePage b fn i)
              (client.getPropertiesByFullname b.frameIndex b.contextId fn i))
            calls := [.getPropertiesByFullname b.frameIndex b.contextId fn i] }
      else { gate := gate, out := .error .staleReference, calls := [] }
  else { gate := gate, out := .error .notPaused, calls := [] }

/-- Modelled from the spec: `DataCache.evaluateOnCallFrame`; the synthetic
Context identifier exists only as conversion context and is not part of the
returned `EvalResult`. -/
def evaluateOnCallFrame {Raw Conv Val : Type} (client : DbgpClient Raw)
    (conv : Converters Raw Conv Val) (gate : GateState) (frameIndex : Nat)
    (expression : String) : OpResult (EvalResult Val) :=
  if gate.enabled then
    let resp := client.evaluateOnCallFrame frameIndex expression
    { gate := gate
      out := .ok
        { result := conv.convertValue
            (.context ⟨gate.enableCount, frameIndex, watchContextId⟩) resp.result
          wasThrown := resp.wasThrown }
      calls := [.evaluateOnCallFrame frameIndex expression] }
  else { gate := gate, out := .error .notPaused, calls := [] }

/-! Concrete fixtures mirroring the DataCache test doubles -/

/-- Protocol-client double of `DataCache-spec.js`: three fixed contexts,
`PROPERTIES` for property fetches, `PROPERTIES` with `wasThrown: false` for
evaluation. -/
def testClient : DbgpClient (List String) :=
  { getContextsForFrame := fun _ =>
      [⟨"Locals", "0"⟩, ⟨"Superglobals", "1"⟩, ⟨"User defined constants", "2"⟩]
    getContextProperties := fun _ _ => ["property"]
    getPropertiesByFullname := fun _ _ _ _ => ["property"]
    evaluateOnCallFrame := fun _ _ => ⟨["property"], false⟩ }

/-- Conversion-routine doubles of `DataCache-spec.js`. -/
def testConverters : Converters (List String) (List String) (List String) :=
  { convertProperties := fun _ _ => ["converted-properties"]
    getPagedProperties := fun _ => ["converted-properties"]
    convertValue := fun _ _ => ["expression"] }

/-- Context identifier fixture of `DataCache-spec.js`. -/
def testContextId : ObjectId := createContextObjectId 1 2 "3"

/-- Paged identifier fixture of `DataCache-spec.js`. -/
def testPagedId : ObjectId := pagedObjectId testContextId "fullname-value" ⟨32, 0, 42⟩

/-- Single-page identifier fixture of `DataCache-spec.js`. -/
def testSinglePageId : ObjectId := singlePageObjectId testContextId "fullname-value" 42

/-- A client double whose answers echo the coordinates they were asked for,
so that distinct requests have distinguishable payloads. -/
def echoClient : DbgpClient (List String) :=
  { getContextsForFrame := fun _ => []
    getContextProperties := fun f c => [natToString f, c]
    getPropertiesByFullname := fun f c fn i => [natToString f, c, fn, natToString i]
    evaluateOnCallFrame := fun f e => ⟨[natToString f, e], false⟩ }

/-- Pass-through conversion doubles, keeping raw payloads observable. -/
def echoConverters : Converters (List String) (List String) (List String) :=
  { convertProperties := fun _ raw => raw
    getPagedProperties := fun _ => []
    convertValue := fun _ raw => raw }

/-! In-flight request interleaving

Modelled from the spec: the concurrency model of the DataCache core — status
events and requests are serialized onto one logical timeline, each request
captures the generation at its own invocation time, and there is no shared
mutable value cache, so overlapping round trips resolve independently. -/

/-- A property-fetch round trip in flight: its caller-chosen tag, the gate
snapshot captured at invocation, and the identifier string it carries. -/
structure PendingRequest where
  tag : Nat
  snapshot : GateState
  remoteId : String
deriving DecidableEq, Repr

/-- One step of the session timeline: a status event, the start of a
property fetch, or the arrival of a remote answer. -/
inductive SessionEvent where
  | status (s : DbgpStatus)
  | invoke (tag : Nat) (remoteId : String)
  | resolve (tag : Nat)
deriving DecidableEq, Repr

/-- Session state: the gate, the in-flight requests, and the responses
delivered so far in delivery order. -/
structure SessionState (Conv : Type) where
  gate : GateState
  pending : List PendingRequest
  delivered : List (Nat × Except DataCacheError Conv)

/-- Timeline semantics: status events touch only the gate; an invocation
captures the current gate; a resolution answers from the snapshot captured
at invocation, untouched by anything that happened since. -/
def sessionStep {Raw Conv Val : Type} (client : DbgpClient Raw)
    (conv : Converters Raw Conv Val) (st : SessionState Conv) :
    SessionEvent → SessionState Conv
  | .status s => { st with gate := onStatus st.gate s }
  | .invoke tag rid => { st with pending := st.pending ++ [⟨tag, st.gate, rid⟩] }
  | .resolve tag =>
    match st.pending.find? (fun p => p.tag == tag) with
    | some p =>
      { st with
        delivered := st.delivered ++
          [(tag, (getProperties client conv p.snapshot p.remoteId).out)]
        pending := st.pending.filter (fun q => q.tag != tag) }
    | none => st

/-- Run a whole timeline of session events. -/
def sessionRun {Raw Conv Val : Type} (client : DbgpClient Raw)
    (conv : Converters Raw Conv Val) (st : SessionState Conv)
    (events : List SessionEvent) : SessionState Conv :=
  events.foldl (sessionStep client conv) st

/-! Linter-adapter invalidation discipline

Modelled from the spec: the `LinterAdapter` implementation behind the
invalidation scenario is not in the visible tree. Events: a new update
consumer subscribing while no fetch is pending (which only dispatches a
fresh lint), a lint fetch resolving (to nothing, or to a file-scoped result),
and the teardown of the originating buffer. Outputs are the published
update/invalidation messages. -/

/-- Result of a lint fetch: nothing (null/undefined) or file-scoped messages
for the given file paths. -/
inductive LintOutcome where
  | lintEmpty
  | lintMessages (filePaths : List String)
deriving DecidableEq, Repr

/-- Events driving the adapter. -/
inductive AdapterEvent where
  | newSubscriber
  | lintResolved (o : LintOutcome)
  | bufferDestroyed
deriving DecidableEq, Repr

/-- Messages the adapter publishes to its consumers. -/
inductive AdapterOutput where
  | messageUpdate (filePaths : List String)
  | messageInvalidation (filePaths : List String)
deriving DecidableEq, Repr

/-- Adapter state: file paths of the previously published file-scoped
result. -/
structure AdapterState where
  published : List String
deriving DecidableEq, Repr

/-- One adapter step: next state and the messages published by the event. -/
def adapterStep (st : AdapterState) : AdapterEvent → AdapterState × List AdapterOutput
  | .newSubscriber => (st, [])
  | .lintResolved .lintEmpty => (st, [])
  | .lintResolved (.lintMessages ps) => (⟨ps⟩, [.messageUpdate ps])
  | .bufferDestroyed => (⟨[]⟩, [.messageInvalidation st.published])

/-- Run the adapter over an event sequence, accumulating published output. -/
def adapterRun (st : AdapterState) : List AdapterEvent → AdapterState × List AdapterOutput
  | [] => (st, [])
  | e :: es =>
    let p := adapterStep st e
    let q := adapterRun p.1 es
    (q.1, p.2 ++ q.2)

/-! Supporting lemmas -/

theorem enableCount_foldl_onStatus (evs : List DbgpStatus) :
    ∀ g : GateState, (evs.foldl onStatus g).enableCount =
      g.enableCount + evs.count .statusBreak := by
  induction evs with
  | nil => intro g; simp
  | cons e es ih =>
    intro g
    rw [List.foldl_cons, ih (onStatus g e), List.count_cons]
    cases e with
    | statusBreak =>
      have hb : (DbgpStatus.statusBreak == DbgpStatus.statusBreak) = true := by decide
      simp only [onStatus, hb, if_true]
      omega
    | statusRunning => simp [onStatus]

theorem sessionRun_status {Raw Conv Val : Type} (client : DbgpClient Raw)
    (conv : Converters Raw Conv Val) (evs : List DbgpStatus) :
    ∀ st : SessionState Conv, sessionRun client conv st (evs.map .status) =
      { st with gate := evs.foldl onStatus st.gate } := by
  induction evs with
  | nil => intro st; rfl
  | cons e es ih =>
    intro st
    rw [List.map_cons, sessionRun, List.foldl_cons]
    show sessionRun client conv { st with gate := onStatus st.gate e } (es.map .status) = _
    rw [ih { st with gate := onStatus st.gate e }]
    simp

/-! Claims -/

/-- C1: for every well-formed ObjectId value of any of the three variants,
decoding the RemoteObjectId string produced by encoding it yields the same
value — encode and decode are mutual inverses on well-formed inputs. -/
theorem claim_c1_roundtrip (v : ObjectId) (h : wellFormedObjectId v = true) :
    objectIdOfRemoteObjectId (remoteObjectIdOfObjectId v) = some v :=
  decode_encode v h

theorem claim_c1_roundtrip_witness :
    objectIdOfRemoteObjectId (remoteObjectIdOfObjectId testContextId) = some testContextId ∧
    objectIdOfRemoteObjectId (remoteObjectIdOfObjectId testPagedId) = some testPagedId ∧
    objectIdOfRemoteObjectId (remoteObjectIdOfObjectId testSinglePageId) =
      some testSinglePageId :=
  ⟨claim_c1_roundtrip testContextId (by decide),
   claim_c1_roundtrip testPagedId (by decide),
   claim_c1_roundtrip testSinglePageId (by decide)⟩

/-- C2: after any status-event history that leaves the gate `Running` (no
Break yet, or Break then Resume, or any other such history), all three
public operations fail with `NotPaused`, perform no protocol-client call,
and leave the gate state — generation counter included — unchanged. -/
theorem claim_c2_notPaused {Raw Conv Val : Type} (client : DbgpClient Raw)
    (conv : Converters Raw Conv Val) (evs : List DbgpStatus)
    (h : (gateAfter evs).enabled = false) (frameIndex : Nat) (remoteId : String)
    (expression : String) :
    getScopesForFrame client (gateAfter evs) frameIndex =
      ⟨gateAfter evs, .error .notPaused, []⟩ ∧
    getProperties client conv (gateAfter evs) remoteId =
      ⟨gateAfter evs, .error .notPaused, []⟩ ∧
    evaluateOnCallFrame client conv (gateAfter evs) frameIndex expression =
      ⟨gateAfter evs, .error .notPaused, []⟩ := by
  refine ⟨?_, ?_, ?_⟩ <;>
    simp [getScopesForFrame, getProperties, evaluateOnCallFrame, h]

theorem claim_c2_notPaused_witness :
    (getScopesForFrame testClient
        (gateAfter [DbgpStatus.statusBreak, DbgpStatus.statusRunning]) 4 =
      ⟨gateAfter [DbgpStatus.statusBreak, DbgpStatus.statusRunning],
       .error .notPaused, []⟩) ∧
    (getProperties testClient testConverters
        (gateAfter [DbgpStatus.statusBreak, DbgpStatus.statusRunning])
        (remoteObjectIdOfObjectId testContextId) =
      ⟨gateAfter [DbgpStatus.statusBreak, DbgpStatus.statusRunning],
       .error .notPaused, []⟩) ∧
    (evaluateOnCallFrame testClient testConverters
        (gateAfter [DbgpStatus.statusBreak, DbgpStatus.statusRunning]) 4 "expression" =
      ⟨gateAfter [DbgpStatus.statusBreak, DbgpStatus.statusRunning],
       .error .notPaused, []⟩) :=
  claim_c2_notPaused testClient testConverters
    [DbgpStatus.statusBreak, DbgpStatus.statusRunning] (by decide) 4
    (remoteObjectIdOfObjectId testContextId) "expression"

/-- C3: a Break event increments the generation by exactly 1 even when the
gate is already Inspectable, a Resume never changes it, and hence after any
status-event history the generation equals the number of Break events
observed since construction. -/
theorem claim_c3_generation :
    (∀ g : GateState, (onStatus g .statusBreak).enableCount = g.enableCount + 1) ∧
    (∀ g : GateState, (onStatus g .statusRunning).enableCount = g.enableCount) ∧
    (∀ evs : List DbgpStatus, (gateAfter evs).enableCount = evs.count .statusBreak) :=
  ⟨fun _ => rfl, fun _ => rfl, fun evs => by
    rw [gateAfter, enableCount_foldl_onStatus]
    simp [initialGate]⟩

/-- C4: an identifier whose embedded generation differs from the gate's
current generation at decode time is rejected by `getProperties` with
`StaleReference`, without invoking the protocol client and without touching
the gate. -/
theorem claim_c4_stale {Raw Conv Val : Type} (client : DbgpClient Raw)
    (conv : Converters Raw Conv Val) (gate : GateState) (oid : ObjectId)
    (hg : gate.enabled = true) (hw : wellFormedObjectId oid = true)
    (hs : (baseOf oid).enableCount ≠ gate.enableCount) :
    getProperties client conv gate (remoteObjectIdOfObjectId oid) =
      ⟨gate, .error .staleReference, []⟩ := by
  rw [getProperties, hg, decode_encode oid hw]
  simp only [if_true]
  rw [if_neg hs]

theorem claim_c4_stale_witness :
    getProperties testClient testConverters
      (gateAfter [DbgpStatus.statusBreak, DbgpStatus.statusBreak, DbgpStatus.statusBreak])
      (remoteObjectIdOfObjectId testContextId) =
    ⟨gateAfter [DbgpStatus.statusBreak, DbgpStatus.statusBreak, DbgpStatus.statusBreak],
     .error .staleReference, []⟩ :=
  claim_c4_stale testClient testConverters _ testContextId (by decide) (by decide) (by decide)

/-- C5: when the gate is Inspectable, `getScopesForFrame` lists the engine's
contexts in the engine's order, one descriptor per context, pairing each
context's display name (as an `object`-typed remote object) with a freshly
minted encoded Context identifier embedding the current generation, the
requested frame index and the engine context id, classifying the context
named "Locals" as `local` and every other context as `global`. -/
theorem claim_c5_scopes {Raw : Type} (client : DbgpClient Raw) (gate : GateState)
    (frameIndex : Nat) (hg : gate.enabled = true) :
    getScopesForFrame client gate frameIndex =
      ⟨gate,
       .ok ((client.getContextsForFrame frameIndex).map fun c =>
         { object :=
             { description := c.name
               type := "object"
               objectId := remoteObjectIdOfObjectId
                 (.context ⟨gate.enableCount, frameIndex, c.id⟩) }
           type := if c.name = "Locals" then "local" else "global" }),
       [.getContextsForFrame frameIndex]⟩ := by
  simp [getScopesForFrame, hg, scopeDescriptorOfContext]

theorem claim_c5_scopes_witness :
    getScopesForFrame testClient ⟨1, true⟩ 42 =
      ⟨⟨1, true⟩,
       .ok
         [⟨⟨"Locals", "object",
            "\x7b\"enableCount\":1,\"frameIndex\":42,\"contextId\":\"0\"\x7d"⟩, "local"⟩,
          ⟨⟨"Superglobals", "object",
            "\x7b\"enableCount\":1,\"frameIndex\":42,\"contextId\":\"1\"\x7d"⟩, "global"⟩,
          ⟨⟨"User defined constants", "object",
            "\x7b\"enableCount\":1,\"frameIndex\":42,\"contextId\":\"2\"\x7d"⟩, "global"⟩],
       [.getContextsForFrame 42]⟩ := by
  rw [claim_c5_scopes testClient ⟨1, true⟩ 42 rfl]
  rfl

/-- C6: `getProperties` dispatches on the decoded variant — a Paged
identifier is delegated wholly to the external paged-property routine with
no protocol-client fetch, while a SinglePage identifier fetches exactly one
page through the client's by-fullname call (frame and context coordinates
plus the page's fullname and index) and converts it with the SinglePage
identifier, not a Context one, as conversion context. -/
theorem claim_c6_dispatch {Raw Conv Val : Type} (client : DbgpClient Raw)
    (conv : Converters Raw Conv Val) (gate : GateState) :
    (∀ (b : ObjectIdBase) (fn : String) (pg : PagedWindow),
      gate.enabled = true → wellFormedObjectId (.paged b fn pg) = true →
      b.enableCount = gate.enableCount →
      getProperties client conv gate (remoteObjectIdOfObjectId (.paged b fn pg)) =
        ⟨gate, .ok (conv.getPagedProperties (.paged b fn pg)), []⟩) ∧
    (∀ (b : ObjectIdBase) (fn : String) (i : Nat),
      gate.enabled = true → wellFormedObjectId (.singlePage b fn i) = true →
      b.enableCount = gate.enableCount →
      getProperties client conv gate (remoteObjectIdOfObjectId (.singlePage b fn i)) =
        ⟨gate,
         .ok (conv.convertProperties (.singlePage b fn i)
           (client.getPropertiesByFullname b.frameIndex b.contextId fn i)),
         [.getPropertiesByFullname b.frameIndex b.contextId fn i]⟩) := by
  constructor
  · intro b fn pg hg hw hc
    rw [getProperties, hg, decode_encode _ hw]
    simp only [if_true]
    rw [show baseOf (ObjectId.paged b fn pg) = b from rfl, if_pos hc]
  · intro b fn i hg hw hc
    rw [getProperties, hg, decode_encode _ hw]
    simp only [if_true]
    rw [show baseOf (ObjectId.singlePage b fn i) = b from rfl, if_pos hc]

theorem claim_c6_dispatch_witness :
    (getProperties testClient testConverters ⟨1, true⟩
        (remoteObjectIdOfObjectId testPagedId) =
      ⟨⟨1, true⟩, .ok ["converted-properties"], []⟩) ∧
    (getProperties testClient testConverters ⟨1, true⟩
        (remoteObjectIdOfObjectId testSinglePageId) =
      ⟨⟨1, true⟩, .ok ["converted-properties"],
       [.getPropertiesByFullname 2 "3" "fullname-value" 42]⟩) :=
  ⟨(claim_c6_dispatch testClient testConverters ⟨1, true⟩).1 ⟨1, 2, "3"⟩ "fullname-value"
      ⟨32, 0, 42⟩ rfl (by decide) rfl,
   (claim_c6_dispatch testClient testConverters ⟨1, true⟩).2 ⟨1, 2, "3"⟩ "fullname-value"
      42 rfl (by decide) rfl⟩

/-- C7: when the gate is Inspectable, `evaluateOnCallFrame` calls the
client's evaluate operation with the given frame index and expression,
synthesizes a Context identifier carrying the current generation, the given
frame index and the reserved sentinel context id (a constant that no
decimal engine context id can equal), hands that identifier and the raw
result to the external value-conversion routine, and returns the converted
value with the client's `wasThrown` flag unmodified — the synthetic
identifier itself is not part of the returned value. -/
theorem claim_c7_evaluate {Raw Conv Val : Type} (client : DbgpClient Raw)
    (conv : Converters Raw Conv Val) (gate : GateState) (frameIndex : Nat)
    (expression : String) (hg : gate.enabled = true) :
    (evaluateOnCallFrame client conv gate frameIndex expression =
      ⟨gate,
       .ok
         { result := conv.convertValue
             (.context ⟨gate.enableCount, frameIndex, watchContextId⟩)
             (client.evaluateOnCallFrame frameIndex expression).result
           wasThrown := (client.evaluateOnCallFrame frameIndex expression).wasThrown },
       [.evaluateOnCallFrame frameIndex expression]⟩) ∧
    (∀ n : Nat, natToString n ≠ watchContextId) := by
  constructor
  · simp [evaluateOnCallFrame, hg]
  · intro n h
    have hd : natChars n = watchContextId.data := congrArg String.data h
    have hw : 'W' ∈ natChars n := by
      rw [hd]
      decide
    have := mem_natChars_isDigit n hw
    simp at this

theorem claim_c7_evaluate_witness :
    (evaluateOnCallFrame testClient testConverters ⟨1, true⟩ 5 "expression" =
      ⟨⟨1, true⟩, .ok ⟨["expression"], false⟩, [.evaluateOnCallFrame 5 "expression"]⟩) ∧
    natToString 0 ≠ watchContextId := by
  have h := claim_c7_evaluate testClient testConverters ⟨1, true⟩ 5 "expression" rfl
  exact ⟨h.1, h.2 0⟩

/-- C8: the encoded form of a Context identifier with generation G, frame
index F and engine context id C is exactly the JSON object string
`\x7b"enableCount":G,"frameIndex":F,"contextId":"C"\x7d` — the field the
spec calls "generation" travels on the wire under the key `enableCount` —
and decoding that very string yields back the enableCount-keyed Context
record handed to the conversion routines. -/
theorem claim_c8_wire (g f : Nat) (c : String) (h : strOk c = true) :
    (remoteObjectIdOfObjectId (.context ⟨g, f, c⟩) =
      "\x7b\"enableCount\":" ++ natToString g ++ ",\"frameIndex\":" ++ natToString f ++
        ",\"contextId\":\"" ++ c ++ "\"\x7d") ∧
    (objectIdOfRemoteObjectId
        ("\x7b\"enableCount\":" ++ natToString g ++ ",\"frameIndex\":" ++ natToString f ++
          ",\"contextId\":\"" ++ c ++ "\"\x7d") = some (.context ⟨g, f, c⟩)) := by
  have h1 : remoteObjectIdOfObjectId (.context ⟨g, f, c⟩) =
      "\x7b\"enableCount\":" ++ natToString g ++ ",\"frameIndex\":" ++ natToString f ++
        ",\"contextId\":\"" ++ c ++ "\"\x7d" := by
    cases c with
    | mk cdata =>
      rw [show ("\x7b\"enableCount\":" : String) = String.mk keyEnable from rfl,
        show (",\"frameIndex\":" : String) = String.mk keyFrame from rfl,
        show (",\"contextId\":\"" : String) = String.mk keyContext from rfl,
        show ("\"\x7d" : String) = String.mk ('"' :: endBrace) from rfl,
        natToString, natToString]
      simp only [string_append_mk]
      show String.mk (encodeChars (.context ⟨g, f, String.mk cdata⟩)) = _
      apply congrArg
      simp [encodeChars, encodeBaseChars]
  refine ⟨h1, ?_⟩
  rw [← h1]
  exact decode_encode (.context ⟨g, f, c⟩) h

theorem claim_c8_wire_witness :
    remoteObjectIdOfObjectId (.context ⟨1, 42, "0"⟩) =
      "\x7b\"enableCount\":1,\"frameIndex\":42,\"contextId\":\"0\"\x7d" ∧
    objectIdOfRemoteObjectId
        "\x7b\"enableCount\":1,\"frameIndex\":42,\"contextId\":\"0\"\x7d" =
      some (.context ⟨1, 42, "0"⟩) := by
  have h := claim_c8_wire 1 42 "0" (by decide)
  refine ⟨?_, ?_⟩
  · rw [h.1]
    decide
  · have h2 := h.2
    rw [show ("\x7b\"enableCount\":" ++ natToString 1 ++ ",\"frameIndex\":" ++
        natToString 42 ++ ",\"contextId\":\"" ++ "0" ++ "\"\x7d") =
        "\x7b\"enableCount\":1,\"frameIndex\":42,\"contextId\":\"0\"\x7d" from by decide] at h2
    exact h2

/-- C9: subscribing a new update consumer while no fetch is pending is not
itself an invalidation (it only dispatches a fresh lint), a fetch that
resolves to nothing never invalidates the previously published file-scoped
result, and an invalidation is published only by the teardown of the
originating buffer, carrying exactly the previously published file paths. -/
theorem claim_c9_invalidation :
    (∀ st : AdapterState, adapterStep st .newSubscriber = (st, [])) ∧
    (∀ st : AdapterState, adapterStep st (.lintResolved .lintEmpty) = (st, [])) ∧
    (∀ (st : AdapterState) (e : AdapterEvent) (ps : List String),
      .messageInvalidation ps ∈ (adapterStep st e).2 →
      e = .bufferDestroyed ∧ ps = st.published) := by
  refine ⟨fun _ => rfl, fun _ => rfl, ?_⟩
  intro st e ps h
  cases e with
  | newSubscriber => simp [adapterStep] at h
  | lintResolved o =>
    cases o with
    | lintEmpty => simp [adapterStep] at h
    | lintMessages qs => simp [adapterStep] at h
  | bufferDestroyed =>
    refine ⟨rfl, ?_⟩
    simpa [adapterStep] using h

theorem claim_c9_invalidation_witness :
    (adapterStep ⟨["foo", "bar"]⟩ .newSubscriber = (⟨["foo", "bar"]⟩, [])) ∧
    (adapterStep ⟨["foo", "bar"]⟩ (.lintResolved .lintEmpty) = (⟨["foo", "bar"]⟩, [])) ∧
    (AdapterEvent.bufferDestroyed = AdapterEvent.bufferDestroyed ∧
      ["foo", "bar"] = (⟨["foo", "bar"]⟩ : AdapterState).published) :=
  ⟨claim_c9_invalidation.1 ⟨["foo", "bar"]⟩,
   claim_c9_invalidation.2.1 ⟨["foo", "bar"]⟩,
   claim_c9_invalidation.2.2 ⟨["foo", "bar"]⟩ .bufferDestroyed ["foo", "bar"] (by decide)⟩

/-- C10: two property fetches invoked in sequence while the gate is
Inspectable, with any status churn (for instance a late Resume) between
invocation and resolution, and the second round trip resolving before the
first, both deliver: nothing is dropped, duplicated or swapped, each answer
is tagged with its own request, and each is computed from the gate
snapshot — generation included — captured at its own invocation time. -/
theorem claim_c10_overlap {Raw Conv Val : Type} (client : DbgpClient Raw)
    (conv : Converters Raw Conv Val) (g : GateState) (hg : g.enabled = true)
    (r1 r2 : String) (evs : List DbgpStatus) :
    (sessionRun client conv ⟨g, [], []⟩
        ([.invoke 1 r1, .invoke 2 r2] ++ (evs.map .status) ++ [.resolve 2, .resolve 1])).delivered =
      [(2, (getProperties client conv g r2).out), (1, (getProperties client conv g r1).out)] := by
  rw [sessionRun, List.foldl_append, List.foldl_append]
  have h1 : List.foldl (sessionStep client conv) ⟨g, [], []⟩
      [SessionEvent.invoke 1 r1, SessionEvent.invoke 2 r2] =
      ⟨g, [⟨1, g, r1⟩, ⟨2, g, r2⟩], []⟩ := rfl
  rw [h1]
  rw [show List.foldl (sessionStep client conv) (⟨g, [⟨1, g, r1⟩, ⟨2, g, r2⟩], []⟩ :
      SessionState Conv) (evs.map .status) =
    sessionRun client conv ⟨g, [⟨1, g, r1⟩, ⟨2, g, r2⟩], []⟩ (evs.map .status) from rfl]
  rw [sessionRun_status]
  simp [sessionStep, List.find?, List.filter]

theorem claim_c10_overlap_witness :
    (sessionRun echoClient echoConverters ⟨⟨1, true⟩, [], []⟩
        [.invoke 1 (remoteObjectIdOfObjectId (createContextObjectId 1 2 "3")),
         .invoke 2 (remoteObjectIdOfObjectId (createContextObjectId 1 7 "9")),
         .status .statusRunning, .resolve 2, .resolve 1]).delivered =
      [(2, .ok [natToString 7, "9"]), (1, .ok [natToString 2, "3"])] := by
  have h := claim_c10_overlap echoClient echoConverters ⟨1, true⟩ rfl
    (remoteObjectIdOfObjectId (createContextObjectId 1 2 "3"))
    (remoteObjectIdOfObjectId (createContextObjectId 1 7 "9"))
    [.statusRunning]
  rw [show ([SessionEvent.invoke 1 (remoteObjectIdOfObjectId (createContextObjectId 1 2 "3")),
      SessionEvent.invoke 2 (remoteObjectIdOfObjectId (createContextObjectId 1 7 "9"))] ++
      ([DbgpStatus.statusRunning].map SessionEvent.status) ++
      [SessionEvent.resolve 2, SessionEvent.resolve 1]) =
    [SessionEvent.invoke 1 (remoteObjectIdOfObjectId (createContextObjectId 1 2 "3")),
     SessionEvent.invoke 2 (remoteObjectIdOfObjectId (createContextObjectId 1 7 "9")),
     SessionEvent.status DbgpStatus.statusRunning,
     SessionEvent.resolve 2, SessionEvent.resolve 1] from rfl] at h
  rw [h]
  rfl

end Nuclide
